import Mathlib

/-!
Verification of the keyword-spotting decoder in
`app/src/main/jni/kws/keyword-spot.h` (class `KeywordSpot` and its nested
`struct Token`).

Embedding conventions:
* C `float` fields and scores are modelled as `ℚ` (exact arithmetic; the
  verified claims are structural, none depends on rounding).
* `logf` and `expf` are external math-library functions; they are passed in
  as parameters `lg ex : ℚ → ℚ`, mirroring how the `Fst` and the filler
  symbol table are external collaborators.
* The `int` counters (`num_keyword_frames`, `num_frames_of_current_state`,
  `num_keyword_states`, `num_frames_`) only ever hold values obtained from 0
  by `+1` or by copying, so they are modelled as `ℕ`; the `int32_t` keyword
  labels are modelled as `ℤ`.
* The two token buffers are `List Token`; `std::vector` indexing is `getD` /
  `set` (the `CHECK` bounds assertions of the source guarantee in-range
  access, so the out-of-range defaults are never exercised on well-formed
  transducers).
* `fst_` is modelled by its interface used here: number of states, the arc
  list of each state (`ArcStart`/`ArcEnd` enumeration order preserved), and
  final-state membership.  `filler_table_.HaveId` is a predicate `ℕ → Bool`.
-/

/-- One outgoing arc of the transducer: `ilabel` (consumed phone id),
`olabel` (emitted keyword id, 0 = none), `next_state`. -/
structure Arc where
  ilabel : ℕ
  olabel : ℤ
  next_state : ℕ
deriving Repr, DecidableEq

/-- The transducer interface used by `KeywordSpot`: `NumStates`,
per-state arc enumeration (`ArcStart` .. `ArcEnd`), `IsFinal`. -/
structure Fst where
  numStates : ℕ
  arcs : ℕ → List Arc
  finals : ℕ → Bool

/-- The decoding cell `KeywordSpot::Token`, one per transducer state per
frame. -/
structure Token where
  active : Bool
  is_filler : Bool
  score : ℚ
  num_keyword_frames : ℕ
  average_keyword_score : ℚ
  keyword : ℤ
  num_frames_of_current_state : ℕ
  num_keyword_states : ℕ
  max_score_of_current_state : ℚ
  average_max_keyword_score : ℚ
  average_max_keyword_score_before : ℚ
deriving Repr, DecidableEq

/-- The `Token()` constructor: inactive, classified filler, all statistics
zero. -/
def Token.mkInit : Token :=
  { active := false
    is_filler := true
    score := 0
    num_keyword_frames := 0
    average_keyword_score := 0
    keyword := 0
    num_frames_of_current_state := 0
    num_keyword_states := 0
    max_score_of_current_state := 0
    average_max_keyword_score := 0
    average_max_keyword_score_before := 0 }

/-- `Token::Reset()`: assigns every field the same values as the
constructor. -/
def Token.reset (_ : Token) : Token :=
  { active := false
    is_filler := true
    score := 0
    num_keyword_frames := 0
    average_keyword_score := 0
    keyword := 0
    num_frames_of_current_state := 0
    num_keyword_states := 0
    max_score_of_current_state := 0
    average_max_keyword_score := 0
    average_max_keyword_score_before := 0 }

/-- `Token::Update(prev, olabel, is_self_arc, is_filler, am_score)`.
`self` is the destination (current-frame) token; the function returns the
mutated destination.  Mirrors the source line by line: the score
competition `!active || (active && score < prev.score + am_score)`, the
keyword-statistics block guarded by `!is_filler`, the self-arc/transition
split, the recomputation of `average_max_keyword_score`, the `olabel`
latch, and the unconditional trailing `active = true; is_filler =
is_filler`. -/
def Token.Update (self prev : Token) (olabel : ℤ) (is_self_arc is_filler : Bool)
    (am_score : ℚ) : Token :=
  let s1 :=
    if self.active = false ∨ self.score < prev.score + am_score then
      let s := { self with score := prev.score + am_score }
      if is_filler = false then
        let t := prev.num_keyword_frames
        let s := { s with
          average_keyword_score :=
            (am_score + prev.average_keyword_score * (t : ℚ)) / ((t : ℚ) + 1)
          num_keyword_frames := t + 1 }
        let s :=
          if is_self_arc = true then
            { s with
              num_frames_of_current_state := prev.num_frames_of_current_state + 1
              num_keyword_states := prev.num_keyword_states
              max_score_of_current_state :=
                max prev.max_score_of_current_state am_score
              average_max_keyword_score_before :=
                prev.average_max_keyword_score_before }
          else
            { s with
              num_frames_of_current_state := 1
              num_keyword_states := prev.num_keyword_states + 1
              max_score_of_current_state := am_score
              average_max_keyword_score_before := prev.average_max_keyword_score }
        let s := { s with
          average_max_keyword_score :=
            (s.max_score_of_current_state +
              s.average_max_keyword_score_before *
                ((s.num_keyword_states : ℚ) - 1)) /
              (s.num_keyword_states : ℚ) }
        if olabel ≠ 0 then { s with keyword := olabel } else s
      else s
    else self
  { s1 with active := true, is_filler := is_filler }

/-- The condition under which the `CHECK(num_keyword_states > 0)` assertion
inside `Token::Update` fails: the update wins the score competition, is
non-filler, is a self arc, and the carried-forward `prev.num_keyword_states`
is zero. -/
def Token.updateAssertViolated (self prev : Token) (is_self_arc is_filler : Bool)
    (am_score : ℚ) : Prop :=
  (self.active = false ∨ self.score < prev.score + am_score) ∧
    is_filler = false ∧ is_self_arc = true ∧ prev.num_keyword_states = 0

/-- The divisor used by the recomputation of `average_max_keyword_score` in a
winning non-filler update: the new `num_keyword_states`, i.e.
`prev.num_keyword_states` on a self arc and `prev.num_keyword_states + 1` on
a transition. -/
def Token.updateDivisor (prev : Token) (is_self_arc : Bool) : ℕ :=
  if is_self_arc = true then prev.num_keyword_states else prev.num_keyword_states + 1

/-- Equality of the eight keyword-statistics fields of two tokens (everything
except `active`, `is_filler` and `score`). -/
def Token.kwStatsEq (a b : Token) : Prop :=
  a.num_keyword_frames = b.num_keyword_frames ∧
  a.average_keyword_score = b.average_keyword_score ∧
  a.keyword = b.keyword ∧
  a.num_frames_of_current_state = b.num_frames_of_current_state ∧
  a.num_keyword_states = b.num_keyword_states ∧
  a.max_score_of_current_state = b.max_score_of_current_state ∧
  a.average_max_keyword_score = b.average_max_keyword_score ∧
  a.average_max_keyword_score_before = b.average_max_keyword_score_before

/-- Equality of every field except `active` and `is_filler` (the eight
keyword-statistics fields plus `score`). -/
def Token.statsEq (a b : Token) : Prop :=
  a.score = b.score ∧ Token.kwStatsEq a b

/-- All statistics of a token are zero (the state `Token::Reset()` leaves the
numeric fields in). -/
def Token.statsZero (a : Token) : Prop :=
  a.score = 0 ∧ a.num_keyword_frames = 0 ∧ a.average_keyword_score = 0 ∧
  a.keyword = 0 ∧ a.num_frames_of_current_state = 0 ∧
  a.num_keyword_states = 0 ∧ a.max_score_of_current_state = 0 ∧
  a.average_max_keyword_score = 0 ∧ a.average_max_keyword_score_before = 0

instance : DecidablePred fun p : Token × Token => Token.kwStatsEq p.1 p.2 :=
  fun _ => by unfold Token.kwStatsEq; infer_instance

/-- `kMaxTokenPassingFrames = 100 * 60 * 10` (the source comment reads
"10 minitue", i.e. 10 minutes at 100 frames per second). -/
def kMaxTokenPassingFrames : ℕ := 100 * 60 * 10

/-- The mutable state of a `KeywordSpot` object: the frame counter, the two
token buffers and the three configuration values (the borrowed `fst_` and
`filler_table_` are passed to each operation instead). -/
structure KeywordSpot where
  num_frames : ℕ
  prev_tokens : List Token
  cur_tokens : List Token
  spot_threshold : ℚ
  min_keyword_frames : ℤ
  min_frames_for_last_state : ℤ

/-- Result triple of one `Spot` call: the returned `legal` flag and the two
out-parameters `*confidence` and `*keyword`. -/
structure SpotResult where
  legal : Bool
  confidence : ℚ
  keyword : ℤ
deriving Repr, DecidableEq

/-- The propagation loop body for one active previous-frame state `i`: walk
the arc list of `i` in enumeration order and apply `Token::Update` to each
arc's destination token in the current buffer.  `lg` is `logf`, `am` the
frame's acoustic scores (`am (ilabel - 1)` is `am_score[arc->ilabel - 1]`). -/
def propagateState (fst : Fst) (isFiller : ℕ → Bool) (lg : ℚ → ℚ) (am : ℕ → ℚ)
    (prevTok : Token) (i : ℕ) (cur : List Token) : List Token :=
  (fst.arcs i).foldl
    (fun cur arc =>
      cur.set arc.next_state
        ((cur.getD arc.next_state Token.mkInit).Update prevTok arc.olabel
          (decide (i = arc.next_state)) (isFiller arc.ilabel)
          (lg (am (arc.ilabel - 1)))))
    cur

/-- The full propagation step of `KeywordSpot::Spot`: for every state of the
previous buffer, if its token is active, propagate it along its arcs. -/
def propagate (fst : Fst) (isFiller : ℕ → Bool) (lg : ℚ → ℚ) (am : ℕ → ℚ)
    (prev cur : List Token) : List Token :=
  (List.range prev.length).foldl
    (fun cur i =>
      if (prev.getD i Token.mkInit).active = true then
        propagateState fst isFiller lg am (prev.getD i Token.mkInit) i cur
      else cur)
    cur

/-- Accumulator of the "find best score" loop of `KeywordSpot::Spot`. -/
structure SelResult where
  best_state : ℕ
  best_score : ℚ
  best_final_state : ℕ
  best_final_score : ℚ
  reach_final : Bool
deriving Repr, DecidableEq

/-- The first `if` of the "find best score" loop body: track the best
score, seeded from `cur_tokens_[0].score`. -/
def selStepMax (cur : List Token) (r : SelResult) (i : ℕ) : SelResult :=
  if (cur.getD i Token.mkInit).active = true ∧
      r.best_score < (cur.getD i Token.mkInit).score then
    { r with best_score := (cur.getD i Token.mkInit).score, best_state := i }
  else r

/-- The second `if` of the "find best score" loop body: track the best
active final state. -/
def selStepFinal (fst : Fst) (cur : List Token) (r : SelResult) (i : ℕ) :
    SelResult :=
  if (cur.getD i Token.mkInit).active = true ∧ fst.finals i = true then
    if r.reach_final = false then
      { r with
        best_final_score := (cur.getD i Token.mkInit).score
        best_final_state := i
        reach_final := true }
    else if r.best_final_score < (cur.getD i Token.mkInit).score then
      { r with
        best_final_score := (cur.getD i Token.mkInit).score
        best_final_state := i }
    else r
  else r

/-- One iteration of the "find best score" loop, at state index `i`: the
two `if` blocks of the source, executed in order. -/
def selStep (fst : Fst) (cur : List Token) (r : SelResult) (i : ℕ) : SelResult :=
  selStepFinal fst cur (selStepMax cur r i) i

/-- The "find best score" loop of `KeywordSpot::Spot`: initialised with
`best_state = 0`, `best_score = cur_tokens_[0].score`,
`best_final_state = 0`, `best_final_score = 0`, `reach_final = false`, then
iterated for `i = 1 .. cur.length - 1`. -/
def select (fst : Fst) (cur : List Token) : SelResult :=
  (List.range' 1 (cur.length - 1)).foldl (selStep fst cur)
    { best_state := 0
      best_score := (cur.getD 0 Token.mkInit).score
      best_final_state := 0
      best_final_score := 0
      reach_final := false }

/-- `KeywordSpot::Spot(am_score, num, &confidence, &keyword)`.  Returns the
result triple and the successor decoder state.  The four phases of the
source are reproduced in order: propagation, best-score selection, the
final-state decision, buffer rotation (swap + clear of the new current
buffer), and the overflow guard on the frame counter.  The two buffers have
equal length by construction, so the source's clearing loops (bounded by
`cur_tokens_.size()`) are `List.map Token.reset` over the respective
buffer. -/
def KeywordSpot.Spot (fst : Fst) (isFiller : ℕ → Bool) (lg ex : ℚ → ℚ)
    (ks : KeywordSpot) (am : ℕ → ℚ) : SpotResult × KeywordSpot :=
  let cur := propagate fst isFiller lg am ks.prev_tokens ks.cur_tokens
  let sel := select fst cur
  let res : SpotResult :=
    if sel.reach_final = true then
      let tok := cur.getD sel.best_final_state Token.mkInit
      let conf := ex tok.average_max_keyword_score
      { legal :=
          decide (ks.min_keyword_frames ≤ (tok.num_keyword_frames : ℤ)) &&
          decide (ks.min_frames_for_last_state ≤
            (tok.num_frames_of_current_state : ℤ)) &&
          decide (ks.spot_threshold < conf)
        confidence := conf
        keyword := tok.keyword }
    else { legal := false, confidence := 0, keyword := 0 }
  let newPrev := cur
  let newCur := ks.prev_tokens.map Token.reset
  let nf := ks.num_frames + 1
  let newPrev2 :=
    if kMaxTokenPassingFrames < nf ∧
        (newPrev.getD sel.best_state Token.mkInit).is_filler = true then
      newPrev.map Token.reset
    else newPrev
  (res, { ks with num_frames := nf, prev_tokens := newPrev2, cur_tokens := newCur })

/-- `KeywordSpot::Reset()`: reset every token of both buffers, reactivate
state 0 of the previous buffer, zero the frame counter. -/
def KeywordSpot.Reset (ks : KeywordSpot) : KeywordSpot :=
  let prev := ks.prev_tokens.map Token.reset
  let cur := ks.cur_tokens.map Token.reset
  let prev := prev.set 0 { prev.getD 0 Token.mkInit with active := true }
  { ks with num_frames := 0, prev_tokens := prev, cur_tokens := cur }

/-- The `KeywordSpot` constructor: default configuration
(`spot_threshold_ = 0.5`, `min_keyword_frames_ = 0`,
`min_frames_for_last_state_ = 5`), both buffers sized to the transducer's
state count, then `Reset()`. -/
def mkKeywordSpot (numStates : ℕ) : KeywordSpot :=
  KeywordSpot.Reset
    { num_frames := 0
      prev_tokens := List.replicate numStates Token.mkInit
      cur_tokens := List.replicate numStates Token.mkInit
      spot_threshold := 1 / 2
      min_keyword_frames := 0
      min_frames_for_last_state := 5 }

/-- `KeywordSpot::SetSpotThreshold`. -/
def KeywordSpot.SetSpotThreshold (ks : KeywordSpot) (t : ℚ) : KeywordSpot :=
  { ks with spot_threshold := t }

/-- `KeywordSpot::SetMinKeywordFrames`. -/
def KeywordSpot.SetMinKeywordFrames (ks : KeywordSpot) (n : ℤ) : KeywordSpot :=
  { ks with min_keyword_frames := n }

/-- `KeywordSpot::SetMinFramesForLastState`. -/
def KeywordSpot.SetMinFramesForLastState (ks : KeywordSpot) (n : ℤ) : KeywordSpot :=
  { ks with min_frames_for_last_state := n }

/-- Feed a sequence of frames to the decoder, collecting the per-frame
result triples. -/
def runSpots (fst : Fst) (isFiller : ℕ → Bool) (lg ex : ℚ → ℚ)
    (ks : KeywordSpot) : List (ℕ → ℚ) → List SpotResult
  | [] => []
  | am :: rest =>
      let p := KeywordSpot.Spot fst isFiller lg ex ks am
      p.1 :: runSpots fst isFiller lg ex p.2 rest

/-- A token that is already active with a high score (used to exercise the
losing branch of the score competition). -/
def tokHigh : Token := { Token.mkInit with active := true, score := 5 }

/-- Invariant of the best-score tracking after the loop has processed
indices `1 .. k-1`: `best_score` is the score of `best_state`; `best_state`
is either the seed state 0 or an active processed state; `best_score`
dominates the seed score and every processed active score. -/
def selInvMax (cur : List Token) (k : ℕ) (r : SelResult) : Prop :=
  r.best_score = (cur.getD r.best_state Token.mkInit).score ∧
  (r.best_state = 0 ∨
    (1 ≤ r.best_state ∧ r.best_state < k ∧
      (cur.getD r.best_state Token.mkInit).active = true)) ∧
  (cur.getD 0 Token.mkInit).score ≤ r.best_score ∧
  (∀ i, 1 ≤ i → i < k → (cur.getD i Token.mkInit).active = true →
    (cur.getD i Token.mkInit).score ≤ r.best_score)

/-- Invariant of the best-final tracking after the loop has processed
indices `1 .. k-1`: `reach_final` holds exactly when some processed state
is active and final, and in that case `best_final_state` is such a state of
maximal score, with `best_final_score` its score. -/
def selInvFinal (fst : Fst) (cur : List Token) (k : ℕ) (r : SelResult) : Prop :=
  (r.reach_final = true ↔
    ∃ i, 1 ≤ i ∧ i < k ∧ (cur.getD i Token.mkInit).active = true ∧
      fst.finals i = true) ∧
  (r.reach_final = true →
    1 ≤ r.best_final_state ∧ r.best_final_state < k ∧
    (cur.getD r.best_final_state Token.mkInit).active = true ∧
    fst.finals r.best_final_state = true ∧
    r.best_final_score = (cur.getD r.best_final_state Token.mkInit).score ∧
    ∀ i, 1 ≤ i → i < k → (cur.getD i Token.mkInit).active = true →
      fst.finals i = true →
      (cur.getD i Token.mkInit).score ≤ r.best_final_score)

/-- Combined loop invariant of the "find best score" loop. -/
def selInv (fst : Fst) (cur : List Token) (k : ℕ) (r : SelResult) : Prop :=
  selInvMax cur k r ∧ selInvFinal fst cur k r

/-- A two-state transducer with one arc from the start state to state 1 and
no arcs elsewhere; no final states. -/
def fstChain : Fst := ⟨2, fun s => if s = 0 then [⟨1, 0, 1⟩] else [], fun _ => false⟩

/-- A one-state transducer whose single state 0 is both the start state and
a final state, with a self-loop on phone 1. -/
def fstFin0 : Fst := ⟨1, fun _ => [⟨1, 0, 0⟩], fun _ => true⟩

/-- A one-state transducer with a self-loop on phone 1 and no final
states. -/
def fstSelf : Fst := ⟨1, fun _ => [⟨1, 0, 0⟩], fun _ => false⟩

/-- A current-frame buffer in which state 0 is inactive (score 0 from
`Token::Reset`) and state 1 is active with a negative score. -/
def curInact0 : List Token :=
  [Token.mkInit, { Token.mkInit with active := true, score := -1 }]

/-- The constant-one function, standing in for `expf` in counterexamples. -/
def exOne : ℚ → ℚ := fun _ => 1

/-- The current-frame buffer as it stands after the propagation phase of one
`Spot` call (the buffer the selection and decision phases read). -/
def curFrame (fst : Fst) (isFiller : ℕ → Bool) (lg : ℚ → ℚ) (ks : KeywordSpot)
    (am : ℕ → ℚ) : List Token :=
  propagate fst isFiller lg am ks.prev_tokens ks.cur_tokens

/-- The result triple of one `Spot` call. -/
def spotOut (fst : Fst) (isFiller : ℕ → Bool) (lg ex : ℚ → ℚ)
    (ks : KeywordSpot) (am : ℕ → ℚ) : SpotResult :=
  (KeywordSpot.Spot fst isFiller lg ex ks am).1

/-- The decoder state after one `Spot` call. -/
def spotNext (fst : Fst) (isFiller : ℕ → Bool) (lg ex : ℚ → ℚ)
    (ks : KeywordSpot) (am : ℕ → ℚ) : KeywordSpot :=
  (KeywordSpot.Spot fst isFiller lg ex ks am).2

/-- A freshly reset one-state decoder whose frame counter has been advanced
to 60000 frames (the situation just before the overflow guard's ceiling is
crossed). -/
def ks60000 : KeywordSpot := { mkKeywordSpot 1 with num_frames := 60000 }

/-- C2: `Token::Update` modifies the score and the keyword statistics only
if the destination is not yet active this frame or `prev.score +
frame_log_score` strictly exceeds the destination's current score; on equal
scores the earlier update keeps its values; when the competition is won the
new score equals `prev.score + frame_log_score`. -/
theorem update_competition_rule (self prev : Token) (olabel : ℤ)
    (is_self_arc is_filler : Bool) (am_score : ℚ) :
    ((self.active = false ∨ self.score < prev.score + am_score) →
      (Token.Update self prev olabel is_self_arc is_filler am_score).score =
        prev.score + am_score) ∧
    (¬ (self.active = false ∨ self.score < prev.score + am_score) →
      Token.statsEq (Token.Update self prev olabel is_self_arc is_filler am_score)
        self) ∧
    (self.active = true → self.score = prev.score + am_score →
      Token.statsEq (Token.Update self prev olabel is_self_arc is_filler am_score)
        self) := by
  refine ⟨?_, ?_, ?_⟩
  · intro hwin
    by_cases ho : olabel = 0 <;>
      cases is_filler <;> cases is_self_arc <;>
        simp [Token.Update, hwin, ho]
  · intro hlose
    simp only [Token.Update, if_neg hlose]
    simp [Token.statsEq, Token.kwStatsEq]
  · intro hact heq
    have hlose : ¬ (self.active = false ∨ self.score < prev.score + am_score) := by
      rw [hact, heq]; simp
    simp only [Token.Update, if_neg hlose]
    simp [Token.statsEq, Token.kwStatsEq]

/-- Witness for `update_competition_rule` at a concrete winning input. -/
theorem update_competition_rule_witness :
    (Token.Update Token.mkInit Token.mkInit 0 false true (-1)).score =
      Token.mkInit.score + (-1) :=
  (update_competition_rule Token.mkInit Token.mkInit 0 false true (-1)).1
    (Or.inl rfl)

/-- C5: a filler update (`is_filler = true`) never changes any of the eight
keyword-statistics fields, even when it wins the score competition and
overwrites `score`. -/
theorem update_filler_keeps_keyword_stats (self prev : Token) (olabel : ℤ)
    (is_self_arc : Bool) (am_score : ℚ) :
    Token.kwStatsEq (Token.Update self prev olabel is_self_arc true am_score)
      self := by
  by_cases hwin : self.active = false ∨ self.score < prev.score + am_score
  · simp only [Token.Update, if_pos hwin]
    simp [Token.kwStatsEq]
  · simp only [Token.Update, if_neg hwin]
    simp [Token.kwStatsEq]

/-- C6: `Token::Update` unconditionally records `active = true` and the
attempted update's filler classification, whether or not the score
competition was won. -/
theorem update_sets_active_and_filler (self prev : Token) (olabel : ℤ)
    (is_self_arc is_filler : Bool) (am_score : ℚ) :
    (Token.Update self prev olabel is_self_arc is_filler am_score).active = true ∧
    (Token.Update self prev olabel is_self_arc is_filler am_score).is_filler =
      is_filler := by
  constructor <;> simp [Token.Update]

/-- C7: under the precondition that every score-winning non-filler self-arc
update sees `prev.num_keyword_states > 0`, the `CHECK(num_keyword_states >
0)` assertion never fires, and in every winning non-filler update the
divisor of the `average_max_keyword_score` recomputation (the new
`num_keyword_states`: carried forward on a self arc, `prev + 1` on a
transition) is at least 1. -/
theorem update_divisor_positive (self prev : Token) (olabel : ℤ)
    (is_self_arc is_filler : Bool) (am_score : ℚ)
    (h : (self.active = false ∨ self.score < prev.score + am_score) →
      is_filler = false → is_self_arc = true → 0 < prev.num_keyword_states) :
    ¬ Token.updateAssertViolated self prev is_self_arc is_filler am_score ∧
    ((self.active = false ∨ self.score < prev.score + am_score) →
      is_filler = false →
      1 ≤ Token.updateDivisor prev is_self_arc ∧
      (Token.Update self prev olabel is_self_arc is_filler am_score).num_keyword_states =
        Token.updateDivisor prev is_self_arc) := by
  constructor
  · rintro ⟨hwin, hf, hs, hzero⟩
    exact absurd hzero (Nat.pos_iff_ne_zero.mp (h hwin hf hs))
  · intro hwin hf
    subst hf
    cases hsa : is_self_arc with
    | true =>
        have hpos := h hwin rfl hsa
        constructor
        · simpa [Token.updateDivisor] using hpos
        · by_cases ho : olabel = 0 <;>
            simp [Token.Update, Token.updateDivisor, hwin, ho]
    | false =>
        constructor
        · simp [Token.updateDivisor]
        · by_cases ho : olabel = 0 <;>
            simp [Token.Update, Token.updateDivisor, hwin, ho]

/-- Witness for `update_divisor_positive` at a concrete transition (non
self-arc) input. -/
theorem update_divisor_positive_witness :
    ¬ Token.updateAssertViolated Token.mkInit Token.mkInit false false (-1) ∧
    1 ≤ Token.updateDivisor Token.mkInit false ∧
    (Token.Update Token.mkInit Token.mkInit 0 false false (-1)).num_keyword_states =
      Token.updateDivisor Token.mkInit false := by
  have h := update_divisor_positive Token.mkInit Token.mkInit 0 false false (-1)
    (fun _ _ hcontra => absurd hcontra (by decide))
  exact ⟨h.1, (h.2 (Or.inl rfl) rfl).1, (h.2 (Or.inl rfl) rfl).2⟩

/-- C10: a losing update (destination already active with a score at least
`prev.score + frame_log_score`) leaves every field except `active` and
`is_filler` unchanged. -/
theorem losing_update_changes_nothing (self prev : Token) (olabel : ℤ)
    (is_self_arc is_filler : Bool) (am_score : ℚ)
    (hact : self.active = true) (hge : ¬ self.score < prev.score + am_score) :
    Token.statsEq (Token.Update self prev olabel is_self_arc is_filler am_score)
      self := by
  have hlose : ¬ (self.active = false ∨ self.score < prev.score + am_score) := by
    rw [hact]; simp [hge]
  simp only [Token.Update, if_neg hlose]
  simp [Token.statsEq, Token.kwStatsEq]

/-- Witness for `losing_update_changes_nothing` at a concrete losing
input. -/
theorem losing_update_changes_nothing_witness :
    Token.statsEq (Token.Update tokHigh Token.mkInit 3 true false 1) tokHigh :=
  losing_update_changes_nothing tokHigh Token.mkInit 3 true false 1 rfl
    (by norm_num [tokHigh, Token.mkInit])

theorem token_reset_eq (t : Token) : Token.reset t = Token.mkInit := rfl

theorem map_reset_eq (l : List Token) :
    l.map Token.reset = List.replicate l.length Token.mkInit := by
  induction l with
  | nil => rfl
  | cons a l ih => simp [List.replicate_succ, ih, token_reset_eq]

theorem getD_replicate_of_lt {α : Type} (n i : ℕ) (a d : α) (h : i < n) :
    (List.replicate n a).getD i d = a := by
  induction n generalizing i with
  | zero => omega
  | succ n ih =>
      cases i with
      | zero => simp [List.replicate_succ]
      | succ i =>
          simp only [List.replicate_succ, List.getD_cons_succ]
          exact ih i (by omega)

/-- After `Reset()`, the previous buffer is the reactivated start token
followed by reset tokens. -/
theorem reset_prev_shape (ks : KeywordSpot) (h : 0 < ks.prev_tokens.length) :
    (ks.Reset).prev_tokens =
      { Token.mkInit with active := true } ::
        List.replicate (ks.prev_tokens.length - 1) Token.mkInit := by
  obtain ⟨a, l, hl⟩ : ∃ a l, ks.prev_tokens = a :: l := by
    cases hks : ks.prev_tokens with
    | nil => rw [hks] at h; simp at h
    | cons a l => exact ⟨a, l, rfl⟩
  simp [KeywordSpot.Reset, hl, token_reset_eq, map_reset_eq]

/-- After `Reset()`, the current buffer is entirely reset tokens. -/
theorem reset_cur_shape (ks : KeywordSpot) :
    (ks.Reset).cur_tokens =
      List.replicate ks.cur_tokens.length Token.mkInit := by
  simp [KeywordSpot.Reset, map_reset_eq]

/-- C8: after `Reset()`, state 0 of the previous buffer is active with all
statistics zero, every other token of both buffers is inactive with zero
statistics, and the frame counter is 0. -/
theorem reset_establishes_start_state (ks : KeywordSpot)
    (h : 0 < ks.prev_tokens.length) :
    ((ks.Reset).prev_tokens.getD 0 Token.mkInit).active = true ∧
    Token.statsZero ((ks.Reset).prev_tokens.getD 0 Token.mkInit) ∧
    (∀ i, 0 < i → i < (ks.Reset).prev_tokens.length →
      ((ks.Reset).prev_tokens.getD i Token.mkInit).active = false ∧
      Token.statsZero ((ks.Reset).prev_tokens.getD i Token.mkInit)) ∧
    (∀ i, i < (ks.Reset).cur_tokens.length →
      ((ks.Reset).cur_tokens.getD i Token.mkInit).active = false ∧
      Token.statsZero ((ks.Reset).cur_tokens.getD i Token.mkInit)) ∧
    (ks.Reset).num_frames = 0 := by
  rw [reset_prev_shape ks h, reset_cur_shape ks]
  refine ⟨rfl, by simp [Token.statsZero, Token.mkInit], ?_, ?_, rfl⟩
  · intro i hi hilen
    cases i with
    | zero => omega
    | succ j =>
        simp only [List.getD_cons_succ]
        simp only [List.length_cons, List.length_replicate] at hilen
        rw [getD_replicate_of_lt _ j _ _ (by omega)]
        exact ⟨rfl, by simp [Token.statsZero, Token.mkInit]⟩
  · intro i hilen
    simp only [List.length_replicate] at hilen
    rw [getD_replicate_of_lt _ i _ _ hilen]
    exact ⟨rfl, by simp [Token.statsZero, Token.mkInit]⟩

/-- Witness for `reset_establishes_start_state` on a concrete dirty
decoder state. -/
theorem reset_establishes_start_state_witness :
    ((KeywordSpot.Reset
        { num_frames := 7, prev_tokens := [tokHigh, tokHigh],
          cur_tokens := [tokHigh, tokHigh], spot_threshold := 3,
          min_keyword_frames := 2,
          min_frames_for_last_state := 1 }).prev_tokens.getD 0
      Token.mkInit).active = true :=
  (reset_establishes_start_state
    { num_frames := 7, prev_tokens := [tokHigh, tokHigh],
      cur_tokens := [tokHigh, tokHigh], spot_threshold := 3,
      min_keyword_frames := 2, min_frames_for_last_state := 1 }
    (by decide)).1

/-- C9: `Reset()` followed by a frame sequence produces the same per-call
output triples as feeding the same sequence to a freshly constructed
decoder over the same transducer and filler set with the same
configuration. -/
theorem reset_replay_equiv (fst : Fst) (isFiller : ℕ → Bool) (lg ex : ℚ → ℚ)
    (ks : KeywordSpot) (n : ℕ)
    (h1 : ks.prev_tokens.length = n) (h2 : ks.cur_tokens.length = n)
    (ams : List (ℕ → ℚ)) :
    runSpots fst isFiller lg ex (ks.Reset) ams =
    runSpots fst isFiller lg ex
      ((((mkKeywordSpot n).SetSpotThreshold ks.spot_threshold).SetMinKeywordFrames
          ks.min_keyword_frames).SetMinFramesForLastState
        ks.min_frames_for_last_state) ams := by
  have hstate : ks.Reset =
      (((mkKeywordSpot n).SetSpotThreshold ks.spot_threshold).SetMinKeywordFrames
          ks.min_keyword_frames).SetMinFramesForLastState
        ks.min_frames_for_last_state := by
    simp only [KeywordSpot.Reset, mkKeywordSpot, KeywordSpot.SetSpotThreshold,
      KeywordSpot.SetMinKeywordFrames, KeywordSpot.SetMinFramesForLastState]
    simp only [map_reset_eq, h1, h2, List.length_replicate]
  rw [hstate]

/-- Witness for `reset_replay_equiv` on a concrete decoder state and frame
sequence. -/
theorem reset_replay_equiv_witness :
    runSpots ⟨1, fun _ => [⟨1, 0, 0⟩], fun _ => false⟩ (fun _ => true) id id
      (KeywordSpot.Reset
        { num_frames := 7, prev_tokens := [tokHigh], cur_tokens := [tokHigh],
          spot_threshold := 3, min_keyword_frames := 2,
          min_frames_for_last_state := 1 }) [fun _ => -1] =
    runSpots ⟨1, fun _ => [⟨1, 0, 0⟩], fun _ => false⟩ (fun _ => true) id id
      ((((mkKeywordSpot 1).SetSpotThreshold 3).SetMinKeywordFrames
          2).SetMinFramesForLastState 1) [fun _ => -1] :=
  reset_replay_equiv ⟨1, fun _ => [⟨1, 0, 0⟩], fun _ => false⟩ (fun _ => true)
    id id
    { num_frames := 7, prev_tokens := [tokHigh], cur_tokens := [tokHigh],
      spot_threshold := 3, min_keyword_frames := 2,
      min_frames_for_last_state := 1 }
    1 rfl rfl [fun _ => -1]

theorem selStepMax_final_fields (cur : List Token) (r : SelResult) (i : ℕ) :
    (selStepMax cur r i).reach_final = r.reach_final ∧
    (selStepMax cur r i).best_final_state = r.best_final_state ∧
    (selStepMax cur r i).best_final_score = r.best_final_score := by
  unfold selStepMax
  split <;> simp

theorem selStepFinal_max_fields (fst : Fst) (cur : List Token) (r : SelResult)
    (i : ℕ) :
    (selStepFinal fst cur r i).best_state = r.best_state ∧
    (selStepFinal fst cur r i).best_score = r.best_score := by
  unfold selStepFinal
  split
  · split
    · simp
    · split <;> simp
  · simp

theorem selInvMax_of_fields (cur : List Token) (k : ℕ) (r r2 : SelResult)
    (hb : r2.best_state = r.best_state) (hs : r2.best_score = r.best_score)
    (h : selInvMax cur k r) : selInvMax cur k r2 := by
  unfold selInvMax at h ⊢
  rw [hb, hs]
  exact h

theorem selInvFinal_of_fields (fst : Fst) (cur : List Token) (k : ℕ)
    (r r2 : SelResult) (hr : r2.reach_final = r.reach_final)
    (hbfs : r2.best_final_state = r.best_final_state)
    (hbf : r2.best_final_score = r.best_final_score)
    (h : selInvFinal fst cur k r) : selInvFinal fst cur k r2 := by
  unfold selInvFinal at h ⊢
  rw [hr, hbfs, hbf]
  exact h

theorem selStepMax_inv (cur : List Token) (k : ℕ) (r : SelResult)
    (hk : 1 ≤ k) (h : selInvMax cur k r) :
    selInvMax cur (k + 1) (selStepMax cur r k) := by
  obtain ⟨h1, h2, h0, h3⟩ := h
  unfold selStepMax
  by_cases hA : (cur.getD k Token.mkInit).active = true ∧
      r.best_score < (cur.getD k Token.mkInit).score
  · rw [if_pos hA]
    refine ⟨rfl, Or.inr ⟨hk, Nat.lt_succ_self k, hA.1⟩, ?_, ?_⟩
    · exact le_of_lt (lt_of_le_of_lt h0 hA.2)
    · intro i hi1 hik hact
      rcases Nat.lt_or_ge i k with hlt | hge
      · exact le_of_lt (lt_of_le_of_lt (h3 i hi1 hlt hact) hA.2)
      · have hik2 : i = k := by omega
        subst hik2
        exact le_refl _
  · rw [if_neg hA]
    refine ⟨h1, ?_, h0, ?_⟩
    · rcases h2 with h2 | ⟨ha, hb, hc⟩
      · exact Or.inl h2
      · exact Or.inr ⟨ha, Nat.lt_succ_of_lt hb, hc⟩
    · intro i hi1 hik hact
      rcases Nat.lt_or_ge i k with hlt | hge
      · exact h3 i hi1 hlt hact
      · have hik2 : i = k := by omega
        subst hik2
        exact not_lt.mp (not_and.mp hA hact)

theorem selStepFinal_inv (fst : Fst) (cur : List Token) (k : ℕ) (r : SelResult)
    (hk : 1 ≤ k) (h : selInvFinal fst cur k r) :
    selInvFinal fst cur (k + 1) (selStepFinal fst cur r k) := by
  obtain ⟨h4, h5⟩ := h
  unfold selStepFinal
  by_cases hF : (cur.getD k Token.mkInit).active = true ∧ fst.finals k = true
  · rw [if_pos hF]
    by_cases hrf : r.reach_final = false
    · rw [if_pos hrf]
      constructor
      · constructor
        · intro _
          exact ⟨k, hk, by omega, hF.1, hF.2⟩
        · intro _
          rfl
      · intro _
        refine ⟨hk, Nat.lt_succ_self k, hF.1, hF.2, rfl, ?_⟩
        intro i hi1 hik hact hfin
        rcases Nat.lt_or_ge i k with hlt | hge
        · exfalso
          have hc : r.reach_final = true := h4.mpr ⟨i, hi1, hlt, hact, hfin⟩
          rw [hrf] at hc
          exact Bool.false_ne_true hc
        · have hik2 : i = k := by omega
          subst hik2
          exact le_refl _
    · have hrt : r.reach_final = true := by
        cases hb : r.reach_final
        · exact absurd hb hrf
        · rfl
      rw [if_neg hrf]
      obtain ⟨hb1, hb2, hb3, hb4, hb5, hb6⟩ := h5 hrt
      by_cases hlt : r.best_final_score < (cur.getD k Token.mkInit).score
      · rw [if_pos hlt]
        constructor
        · constructor
          · intro _
            exact ⟨k, hk, by omega, hF.1, hF.2⟩
          · intro _
            exact hrt
        · intro _
          refine ⟨hk, Nat.lt_succ_self k, hF.1, hF.2, rfl, ?_⟩
          intro i hi1 hik hact hfin
          rcases Nat.lt_or_ge i k with hlt2 | hge
          · exact le_of_lt (lt_of_le_of_lt (hb6 i hi1 hlt2 hact hfin) hlt)
          · have hik2 : i = k := by omega
            subst hik2
            exact le_refl _
      · rw [if_neg hlt]
        constructor
        · constructor
          · intro _
            exact ⟨k, hk, by omega, hF.1, hF.2⟩
          · intro _
            exact hrt
        · intro _
          refine ⟨hb1, by omega, hb3, hb4, hb5, ?_⟩
          intro i hi1 hik hact hfin
          rcases Nat.lt_or_ge i k with hlt2 | hge
          · exact hb6 i hi1 hlt2 hact hfin
          · have hik2 : i = k := by omega
            subst hik2
            exact not_lt.mp hlt
  · rw [if_neg hF]
    constructor
    · rw [h4]
      constructor
      · rintro ⟨i, hi1, hik, hact, hfin⟩
        exact ⟨i, hi1, by omega, hact, hfin⟩
      · rintro ⟨i, hi1, hik, hact, hfin⟩
        rcases Nat.lt_or_ge i k with hlt | hge
        · exact ⟨i, hi1, hlt, hact, hfin⟩
        · have hik2 : i = k := by omega
          subst hik2
          exact absurd ⟨hact, hfin⟩ hF
    · intro hrt
      obtain ⟨hb1, hb2, hb3, hb4, hb5, hb6⟩ := h5 hrt
      refine ⟨hb1, by omega, hb3, hb4, hb5, ?_⟩
      intro i hi1 hik hact hfin
      rcases Nat.lt_or_ge i k with hlt | hge
      · exact hb6 i hi1 hlt hact hfin
      · have hik2 : i = k := by omega
        subst hik2
        exact absurd ⟨hact, hfin⟩ hF

theorem selStep_inv (fst : Fst) (cur : List Token) (k : ℕ) (r : SelResult)
    (hk : 1 ≤ k) (h : selInv fst cur k r) :
    selInv fst cur (k + 1) (selStep fst cur r k) := by
  obtain ⟨hm, hf⟩ := h
  have hm1 := selStepMax_inv cur k r hk hm
  have hf1 : selInvFinal fst cur k (selStepMax cur r k) :=
    selInvFinal_of_fields fst cur k r _ (selStepMax_final_fields cur r k).1
      (selStepMax_final_fields cur r k).2.1
      (selStepMax_final_fields cur r k).2.2 hf
  have hf2 := selStepFinal_inv fst cur k (selStepMax cur r k) hk hf1
  refine ⟨?_, hf2⟩
  exact selInvMax_of_fields cur (k + 1) (selStepMax cur r k) _
    (selStepFinal_max_fields fst cur (selStepMax cur r k) k).1
    (selStepFinal_max_fields fst cur (selStepMax cur r k) k).2 hm1

theorem selInv_foldl (fst : Fst) (cur : List Token) (m : ℕ) :
    ∀ (k : ℕ) (r : SelResult), 1 ≤ k → selInv fst cur k r →
      selInv fst cur (k + m) ((List.range' k m).foldl (selStep fst cur) r) := by
  induction m with
  | zero =>
      intro k r _ h
      simpa using h
  | succ m ih =>
      intro k r hk h
      rw [List.range'_succ]
      simp only [List.foldl_cons]
      have h2 := selStep_inv fst cur k r hk h
      have h3 := ih (k + 1) (selStep fst cur r k) (by omega) h2
      have harith : k + 1 + m = k + (m + 1) := by omega
      rw [harith] at h3
      exact h3

theorem selInv_init (fst : Fst) (cur : List Token) :
    selInv fst cur 1
      { best_state := 0
        best_score := (cur.getD 0 Token.mkInit).score
        best_final_state := 0
        best_final_score := 0
        reach_final := false } := by
  refine ⟨⟨rfl, Or.inl rfl, le_refl _, ?_⟩, ⟨?_, ?_⟩⟩
  · intro i hi1 hik
    omega
  · constructor
    · intro hc
      exact absurd hc (by simp)
    · rintro ⟨i, hi1, hik, _, _⟩
      omega
  · intro hc
    exact absurd hc (by simp)

theorem select_inv (fst : Fst) (cur : List Token) (h : 1 ≤ cur.length) :
    selInv fst cur cur.length (select fst cur) := by
  have h2 := selInv_foldl fst cur (cur.length - 1) 1 _ le_rfl (selInv_init fst cur)
  have harith : 1 + (cur.length - 1) = cur.length := by omega
  rw [harith] at h2
  exact h2

/-- C4 (amended): the selection step of `Spot` scans states `1 .. n-1`.
Its best-score track is seeded with state 0's token score whether or not
state 0 is active, and thereafter takes the maximum over the active states
`1 .. n-1` (so `best_score` dominates the seed and every active state's
score, and `best_state` is either the seed 0 or an active state).  Its
final-state track, independently, finds a maximal-score active final state
among indices `1 .. n-1` exactly when one exists; state 0 is never
considered for the final-state track. -/
theorem select_tracks_best_scores (fst : Fst) (cur : List Token)
    (h : 1 ≤ cur.length) :
    ((select fst cur).best_score =
      (cur.getD (select fst cur).best_state Token.mkInit).score ∧
     (cur.getD 0 Token.mkInit).score ≤ (select fst cur).best_score ∧
     (∀ i, 1 ≤ i → i < cur.length → (cur.getD i Token.mkInit).active = true →
       (cur.getD i Token.mkInit).score ≤ (select fst cur).best_score) ∧
     ((select fst cur).best_state = 0 ∨
       (1 ≤ (select fst cur).best_state ∧
        (select fst cur).best_state < cur.length ∧
        (cur.getD (select fst cur).best_state Token.mkInit).active = true))) ∧
    (((select fst cur).reach_final = true ↔
       ∃ i, 1 ≤ i ∧ i < cur.length ∧ (cur.getD i Token.mkInit).active = true ∧
         fst.finals i = true) ∧
     ((select fst cur).reach_final = true →
       1 ≤ (select fst cur).best_final_state ∧
       (select fst cur).best_final_state < cur.length ∧
       (cur.getD (select fst cur).best_final_state Token.mkInit).active = true ∧
       fst.finals (select fst cur).best_final_state = true ∧
       (select fst cur).best_final_score =
         (cur.getD (select fst cur).best_final_state Token.mkInit).score ∧
       ∀ i, 1 ≤ i → i < cur.length →
         (cur.getD i Token.mkInit).active = true → fst.finals i = true →
         (cur.getD i Token.mkInit).score ≤
           (select fst cur).best_final_score)) := by
  obtain ⟨⟨m1, m2, m0, m3⟩, f1, f2⟩ := select_inv fst cur h
  exact ⟨⟨m1, m0, m3, m2⟩, f1, f2⟩

/-- Witness for `select_tracks_best_scores` on a concrete buffer. -/
theorem select_tracks_best_scores_witness :
    (select fstChain curInact0).best_score =
      (curInact0.getD (select fstChain curInact0).best_state Token.mkInit).score :=
  ((select_tracks_best_scores fstChain curInact0 (by norm_num [curInact0])).1).1

/-- Counterexample to C4 as frozen: with state 0 inactive (its reset score 0
seeds the scan) and state 1 active with score `-1`, the selection step
reports `best_state = 0`, which is not an active state, and its best score
is not the score of any active Hypothesis. -/
theorem select_best_state_counterexample :
    (select fstChain curInact0).best_state = 0 ∧
    (curInact0.getD 0 Token.mkInit).active = false ∧
    (curInact0.getD 1 Token.mkInit).active = true ∧
    1 < curInact0.length ∧
    (select fstChain curInact0).best_score ≠
      (curInact0.getD 1 Token.mkInit).score := by
  refine ⟨?_, ?_, ?_, ?_, ?_⟩ <;>
    norm_num [select, selStep, selStepMax, selStepFinal, curInact0, fstChain,
      Token.mkInit, List.range']

/-- C3 (amended): every `Spot` call increments the monotonic frame counter,
and force-clears the previous-frame buffer (every token reset) exactly when
the incremented counter exceeds the fixed ceiling `kMaxTokenPassingFrames =
60000` frames and the token at the selection step's globally best-scoring
state is filler-classified; the cleared buffer has every token inactive with
zero statistics — state 0 included, so the start state is not
reactivated. -/
theorem spot_overflow_guard (fst : Fst) (isFiller : ℕ → Bool) (lg ex : ℚ → ℚ)
    (ks : KeywordSpot) (am : ℕ → ℚ) :
    (spotNext fst isFiller lg ex ks am).num_frames = ks.num_frames + 1 ∧
    kMaxTokenPassingFrames = 60000 ∧
    (spotNext fst isFiller lg ex ks am).prev_tokens =
      (if kMaxTokenPassingFrames < ks.num_frames + 1 ∧
          ((curFrame fst isFiller lg ks am).getD
            (select fst (curFrame fst isFiller lg ks am)).best_state
            Token.mkInit).is_filler = true then
        (curFrame fst isFiller lg ks am).map Token.reset
      else curFrame fst isFiller lg ks am) ∧
    (∀ i, i < ((curFrame fst isFiller lg ks am).map Token.reset).length →
      (((curFrame fst isFiller lg ks am).map Token.reset).getD i
        Token.mkInit).active = false ∧
      Token.statsZero (((curFrame fst isFiller lg ks am).map Token.reset).getD i
        Token.mkInit)) := by
  refine ⟨rfl, rfl, rfl, ?_⟩
  intro i hi
  rw [map_reset_eq] at hi ⊢
  rw [List.length_replicate] at hi
  rw [getD_replicate_of_lt _ i _ _ hi]
  exact ⟨rfl, by simp [Token.statsZero, Token.mkInit]⟩

/-- Witness for `spot_overflow_guard` on a concrete call. -/
theorem spot_overflow_guard_witness :
    (spotNext fstSelf (fun _ => true) id id (mkKeywordSpot 1)
      (fun _ => 0)).num_frames = (mkKeywordSpot 1).num_frames + 1 :=
  (spot_overflow_guard fstSelf (fun _ => true) id id (mkKeywordSpot 1)
    (fun _ => 0)).1

/-- Counterexample to C3 as frozen: the ceiling is `100 * 60 * 10 = 60000`
frames, not approximately 600000.  A decoder whose counter stands at 60000
(far below 600000) already force-clears its buffer on the next filler-best
frame: after that call the counter is 60001 and the start state's token has
been reset to inactive. -/
theorem spot_overflow_ceiling_counterexample :
    kMaxTokenPassingFrames = 60000 ∧
    (spotNext fstSelf (fun _ => true) id id ks60000 (fun _ => 0)).num_frames =
      60001 ∧
    ((curFrame fstSelf (fun _ => true) id ks60000 (fun _ => 0)).getD 0
      Token.mkInit).active = true ∧
    ((spotNext fstSelf (fun _ => true) id id ks60000
      (fun _ => 0)).prev_tokens.getD 0 Token.mkInit).active = false ∧
    60001 < 600000 := by
  refine ⟨rfl, rfl, ?_, ?_, by norm_num⟩ <;>
    norm_num [spotNext, KeywordSpot.Spot, curFrame, propagate, propagateState,
      Token.Update, ks60000, mkKeywordSpot, KeywordSpot.Reset, fstSelf,
      kMaxTokenPassingFrames, select, selStep, selStepMax, selStepFinal,
      Token.reset, Token.mkInit, List.range', List.range_succ, List.range_zero]

theorem spotOut_eq (fst : Fst) (isFiller : ℕ → Bool) (lg ex : ℚ → ℚ)
    (ks : KeywordSpot) (am : ℕ → ℚ) :
    spotOut fst isFiller lg ex ks am =
      if (select fst (curFrame fst isFiller lg ks am)).reach_final = true then
        { legal :=
            decide (ks.min_keyword_frames ≤
              (((curFrame fst isFiller lg ks am).getD
                (select fst (curFrame fst isFiller lg ks am)).best_final_state
                Token.mkInit).num_keyword_frames : ℤ)) &&
            decide (ks.min_frames_for_last_state ≤
              (((curFrame fst isFiller lg ks am).getD
                (select fst (curFrame fst isFiller lg ks am)).best_final_state
                Token.mkInit).num_frames_of_current_state : ℤ)) &&
            decide (ks.spot_threshold <
              ex ((curFrame fst isFiller lg ks am).getD
                (select fst (curFrame fst isFiller lg ks am)).best_final_state
                Token.mkInit).average_max_keyword_score)
          confidence :=
            ex ((curFrame fst isFiller lg ks am).getD
              (select fst (curFrame fst isFiller lg ks am)).best_final_state
              Token.mkInit).average_max_keyword_score
          keyword :=
            ((curFrame fst isFiller lg ks am).getD
              (select fst (curFrame fst isFiller lg ks am)).best_final_state
              Token.mkInit).keyword }
      else { legal := false, confidence := 0, keyword := 0 } := rfl

theorem foldl_set_length (f : List Token → Arc → Token) :
    ∀ (l : List Arc) (cur : List Token),
      (l.foldl (fun cur arc => cur.set arc.next_state (f cur arc)) cur).length =
        cur.length := by
  intro l
  induction l with
  | nil =>
      intro cur
      rfl
  | cons a l ih =>
      intro cur
      rw [List.foldl_cons, ih, List.length_set]

theorem propagateState_length (fst : Fst) (isFiller : ℕ → Bool) (lg : ℚ → ℚ)
    (am : ℕ → ℚ) (prevTok : Token) (i : ℕ) (cur : List Token) :
    (propagateState fst isFiller lg am prevTok i cur).length = cur.length :=
  foldl_set_length
    (fun cur arc =>
      (cur.getD arc.next_state Token.mkInit).Update prevTok arc.olabel
        (decide (i = arc.next_state)) (isFiller arc.ilabel)
        (lg (am (arc.ilabel - 1))))
    (fst.arcs i) cur

theorem propagate_length (fst : Fst) (isFiller : ℕ → Bool) (lg : ℚ → ℚ)
    (am : ℕ → ℚ) (prev cur : List Token) :
    (propagate fst isFiller lg am prev cur).length = cur.length := by
  unfold propagate
  generalize List.range prev.length = idxs
  induction idxs generalizing cur with
  | nil => rfl
  | cons a l ih =>
      rw [List.foldl_cons, ih]
      by_cases h : (prev.getD a Token.mkInit).active = true
      · rw [if_pos h, propagateState_length]
      · rw [if_neg h]

theorem curFrame_length (fst : Fst) (isFiller : ℕ → Bool) (lg : ℚ → ℚ)
    (ks : KeywordSpot) (am : ℕ → ℚ) :
    (curFrame fst isFiller lg ks am).length = ks.cur_tokens.length :=
  propagate_length fst isFiller lg am ks.prev_tokens ks.cur_tokens

/-- C1 (amended): for every `Spot` call, if at least one final state with
index ≥ 1 is active in the current-frame buffer (the selection loop never
examines state 0 for finality), then the returned confidence is
`exp(average_max_keyword_score)` of a best-scoring such Hypothesis, the
returned keyword is that Hypothesis's `keyword` field, and `spotted = true`
holds iff `num_keyword_frames ≥ min_keyword_frames`,
`num_frames_of_current_state ≥ min_frames_for_last_state` and
`confidence > spot_threshold` all hold for it; if no such final state is
active, `Spot` returns `(spotted = false, confidence = 0, keyword = 0)`. -/
theorem spot_final_decision (fst : Fst) (isFiller : ℕ → Bool) (lg ex : ℚ → ℚ)
    (ks : KeywordSpot) (am : ℕ → ℚ)
    (h : 1 ≤ (curFrame fst isFiller lg ks am).length) :
    ((∃ i, 1 ≤ i ∧ i < (curFrame fst isFiller lg ks am).length ∧
        ((curFrame fst isFiller lg ks am).getD i Token.mkInit).active = true ∧
        fst.finals i = true) →
      ∃ b, 1 ≤ b ∧ b < (curFrame fst isFiller lg ks am).length ∧
        ((curFrame fst isFiller lg ks am).getD b Token.mkInit).active = true ∧
        fst.finals b = true ∧
        (∀ j, 1 ≤ j → j < (curFrame fst isFiller lg ks am).length →
          ((curFrame fst isFiller lg ks am).getD j Token.mkInit).active = true →
          fst.finals j = true →
          ((curFrame fst isFiller lg ks am).getD j Token.mkInit).score ≤
            ((curFrame fst isFiller lg ks am).getD b Token.mkInit).score) ∧
        (spotOut fst isFiller lg ex ks am).confidence =
          ex ((curFrame fst isFiller lg ks am).getD b
            Token.mkInit).average_max_keyword_score ∧
        (spotOut fst isFiller lg ex ks am).keyword =
          ((curFrame fst isFiller lg ks am).getD b Token.mkInit).keyword ∧
        ((spotOut fst isFiller lg ex ks am).legal = true ↔
          (ks.min_keyword_frames ≤
            (((curFrame fst isFiller lg ks am).getD b
              Token.mkInit).num_keyword_frames : ℤ) ∧
           ks.min_frames_for_last_state ≤
            (((curFrame fst isFiller lg ks am).getD b
              Token.mkInit).num_frames_of_current_state : ℤ) ∧
           ks.spot_threshold <
            ex ((curFrame fst isFiller lg ks am).getD b
              Token.mkInit).average_max_keyword_score))) ∧
    ((¬ ∃ i, 1 ≤ i ∧ i < (curFrame fst isFiller lg ks am).length ∧
        ((curFrame fst isFiller lg ks am).getD i Token.mkInit).active = true ∧
        fst.finals i = true) →
      (spotOut fst isFiller lg ex ks am).legal = false ∧
      (spotOut fst isFiller lg ex ks am).confidence = 0 ∧
      (spotOut fst isFiller lg ex ks am).keyword = 0) := by
  obtain ⟨_, f1, f2⟩ := select_inv fst (curFrame fst isFiller lg ks am) h
  constructor
  · intro hex
    have hrf : (select fst (curFrame fst isFiller lg ks am)).reach_final = true :=
      f1.mpr hex
    obtain ⟨g1, g2, g3, g4, g5, g6⟩ := f2 hrf
    refine ⟨(select fst (curFrame fst isFiller lg ks am)).best_final_state,
      g1, g2, g3, g4, ?_, ?_, ?_, ?_⟩
    · intro j hj1 hj2 hj3 hj4
      rw [← g5]
      exact g6 j hj1 hj2 hj3 hj4
    · rw [spotOut_eq, if_pos hrf]
    · rw [spotOut_eq, if_pos hrf]
    · rw [spotOut_eq, if_pos hrf]
      simp only [Bool.and_eq_true, decide_eq_true_eq, and_assoc]
  · intro hnone
    have hrf : ¬ (select fst (curFrame fst isFiller lg ks am)).reach_final = true :=
      fun hc => hnone (f1.mp hc)
    rw [spotOut_eq, if_neg hrf]
    exact ⟨rfl, rfl, rfl⟩

/-- Witness for `spot_final_decision`: a concrete call with no active final
state returns `(false, 0, 0)`. -/
theorem spot_final_decision_witness :
    (spotOut fstSelf (fun _ => true) id exOne (mkKeywordSpot 1)
      (fun _ => 0)).legal = false ∧
    (spotOut fstSelf (fun _ => true) id exOne (mkKeywordSpot 1)
      (fun _ => 0)).confidence = 0 ∧
    (spotOut fstSelf (fun _ => true) id exOne (mkKeywordSpot 1)
      (fun _ => 0)).keyword = 0 :=
  (spot_final_decision fstSelf (fun _ => true) id exOne (mkKeywordSpot 1)
      (fun _ => 0)
      (by
        rw [curFrame_length]
        simp [mkKeywordSpot, KeywordSpot.Reset])).2
    (fun hc => by
      obtain ⟨i, _, _, _, hfin⟩ := hc
      simp [fstSelf] at hfin)

/-- Counterexample to C1 as frozen: on a transducer whose (only) final state
is the start state 0, state 0 is active and final in the current-frame
buffer after propagation, yet `Spot` returns confidence 0 and not
`exp(average_max_keyword_score) = 1` of that active final Hypothesis — the
selection loop starts at index 1 and never considers state 0. -/
theorem spot_ignores_final_start_state :
    fstFin0.finals 0 = true ∧
    ((curFrame fstFin0 (fun _ => true) id (mkKeywordSpot 1) (fun _ => 0)).getD 0
      Token.mkInit).active = true ∧
    exOne ((curFrame fstFin0 (fun _ => true) id (mkKeywordSpot 1)
      (fun _ => 0)).getD 0 Token.mkInit).average_max_keyword_score = 1 ∧
    (spotOut fstFin0 (fun _ => true) id exOne (mkKeywordSpot 1)
      (fun _ => 0)).confidence = 0 ∧
    (1 : ℚ) ≠ 0 := by
  refine ⟨rfl, ?_, rfl, ?_, by norm_num⟩ <;>
    norm_num [spotOut, KeywordSpot.Spot, curFrame, propagate, propagateState,
      Token.Update, mkKeywordSpot, KeywordSpot.Reset, fstFin0, exOne,
      select, selStep, selStepMax, selStepFinal, Token.reset, Token.mkInit,
      List.range', List.range_succ, List.range_zero]
